import Mathlib

/-!
Verification of the `teleport` tmux-session manager (Go) against its
natural-language specification.  The Go source is shallowly embedded:
pure logic becomes Lean functions; external effects (filesystem walk,
process execution) are modelled by explicit data (a filesystem tree,
a command oracle) threaded through the embedded functions.
-/

namespace Teleport

/-! ## Filesystem model for `ListScripts` (`filepath.Walk`)

A directory tree as seen by `filepath.Walk`.  `errEntry` stands for an
entry whose `lstat` (or read) fails: Go's `filepath.Walk` then invokes
the callback with a non-nil `err`, which `ListScripts` returns,
aborting the whole walk. -/

inductive FsEntry where
  | file (name : String)
  | errEntry (name : String) (msg : String)
  | dir (name : String) (children : List FsEntry)
deriving Repr

def FsEntry.name : FsEntry → String
  | .file n => n
  | .errEntry n _ => n
  | .dir n _ => n

def FsEntry.isDir : FsEntry → Bool
  | .dir _ _ => true
  | _ => false

/-! `noErr`: the tree contains no entry whose stat fails. -/

mutual

def noErr : FsEntry → Bool
  | .file _ => true
  | .errEntry _ _ => false
  | .dir _ cs => noErrList cs

def noErrList : List FsEntry → Bool
  | [] => true
  | c :: cs => noErr c && noErrList cs

end

/-! The walk of `ListScripts` (src/unnamed/part_000 lines 54-83).

The Go callback receives each visited entry with its full `path`; it
computes `relativePath := filepath.Rel(root, path)` and
`depth := len(strings.Split(relativePath, sep))`.  We embed this by
carrying, for each visited entry, its full path `fp` and the segment
list `segs` of its relative path (so `depth = segs.length`; for the
root itself `Rel` yields `"."`, one segment).  The callback logic, in
source order: a non-nil `err` is returned (aborts the walk); then
`depth > 3` skips the entry (`SkipDir` for directories, plain skip for
files); then a non-directory entry named `".tmux"` is collected. -/

mutual

def walkEntry (fp : String) (segs : List String) : FsEntry → List String × Option String
  | .errEntry _ m => ([], some m)
  | .file n =>
      if segs.length > 3 then ([], none)
      else if n == ".tmux" then ([fp], none) else ([], none)
  | .dir _ cs =>
      if segs.length > 3 then ([], none)
      else walkChildren fp segs cs

def walkChildren (fp : String) (segs : List String) : List FsEntry → List String × Option String
  | [] => ([], none)
  | c :: cs =>
      match walkEntry (fp ++ "/" ++ c.name) (segs ++ [c.name]) c with
      | (l, some m) => (l, some m)
      | (l, none) =>
          match walkChildren fp segs cs with
          | (l2, r) => (l ++ l2, r)

end

/-- `ListScripts root` on the tree `t` mounted at path `root`: returns
the collected `.tmux` file paths and the walk error, if any.  The root
entry itself has relative path `"."` (depth 1 ≤ 3); a root directory is
never collected, a root regular file named `".tmux"` is. -/
def ListScripts (root : String) (t : FsEntry) : List String × Option String :=
  match t with
  | .errEntry _ m => ([], some m)
  | .file n => if n == ".tmux" then ([root], none) else ([], none)
  | .dir _ cs => walkChildren root [] cs

/-- Full path of the entry reached from `base` by the relative segment
list `segs` (Go joins with the path separator). -/
def joinPath (base : String) (segs : List String) : String :=
  segs.foldl (fun a n => a ++ "/" ++ n) base

/-! Specification-side predicate: `segs` is the relative path of a
regular file named `".tmux"` inside the tree. -/

mutual

def isTmuxFileAt : FsEntry → List String → Bool
  | .dir _ cs, p => anyTmuxAt cs p
  | _, _ => false

def anyTmuxAt : List FsEntry → List String → Bool
  | [], _ => false
  | c :: cs, p => entryMatch c p || anyTmuxAt cs p

def entryMatch : FsEntry → List String → Bool
  | .file m, [n] => m == n && n == ".tmux"
  | .dir m ds, n :: rest => m == n && anyTmuxAt ds rest
  | _, _ => false

end

/-! ## `ReadConfig` (src/unnamed/part_000 lines 27-51)

The `.tp.conf` reader: the file content is split on `"\n"`; empty
lines and lines starting with `"#"` are skipped; each remaining line is
split at the first `'='` (`strings.SplitN(line, "=", 2)`); lines with
no `'='` are skipped; otherwise the map entry `key ↦ TrimSpace(value)`
is written (later lines overwrite earlier ones, as for a Go map). -/

/-- Go `strings.TrimSpace`: whitespace removed from both ends. -/
def goTrimSpace (s : String) : String :=
  ⟨(((s.data.dropWhile Char.isWhitespace).reverse).dropWhile Char.isWhitespace).reverse⟩

/-- `strings.SplitN(line, "=", 2)` on the character list: the part
before the first `'='` and, when one occurs, the part after it. -/
def splitEq : List Char → List Char × Option (List Char)
  | [] => ([], none)
  | c :: rest =>
      if c = '=' then ([], some rest)
      else match splitEq rest with
           | (k, v) => (c :: k, v)

/-- One iteration of the `ReadConfig` line loop: the empty line and a
line whose first character is `'#'` (`strings.HasPrefix(line, "#")`)
are skipped; a line without `'='` is skipped; otherwise the map write
`config[key] = TrimSpace(value)` is modelled by appending —
`lookupConfig` takes the last binding, as a Go map overwrite does. -/
def processLineChars (cfg : List (String × String)) : List Char → List (String × String)
  | [] => cfg
  | '#' :: _ => cfg
  | l =>
      match splitEq l with
      | (_, none) => cfg
      | (k, some v) => cfg ++ [(⟨k⟩, goTrimSpace ⟨v⟩)]

def processLine (cfg : List (String × String)) (line : String) : List (String × String) :=
  processLineChars cfg line.data

def ReadConfig (lines : List String) : List (String × String) :=
  lines.foldl processLine []

/-- `strings.Split` at a one-character separator, on the character
list: `n` separators yield `n + 1` pieces. -/
def splitOnChar (sep : Char) : List Char → List (List Char)
  | [] => [[]]
  | c :: rest =>
      if c = sep then [] :: splitOnChar sep rest
      else
        match splitOnChar sep rest with
        | [] => [[c]]
        | x :: xs => (c :: x) :: xs

def ReadConfigContent (content : String) : List (String × String) :=
  ReadConfig ((splitOnChar '\n' content.data).map (fun l => ⟨l⟩))

/-- Go map lookup on the write log: the last write to a key wins. -/
def lookupConfig (cfg : List (String × String)) (k : String) : Option String :=
  (cfg.reverse.find? (fun kv => kv.1 == k)).map (fun kv => kv.2)

/-! ## Multiplexer command model

Every tmux invocation the program issues, as data.  An execution
oracle `Exec` maps a command to `none` (exit status 0) or
`some errMsg` (the string Go's `%v` would render for the `Run` error).
This is the spec's "fake executor recording calls" view of
`os/exec`. -/

structure TmuxWindow where
  name : String
  commands : List String
deriving Repr, DecidableEq

structure TmuxSession where
  sessionName : String
  windows : List TmuxWindow
deriving Repr, DecidableEq

inductive TmuxCmd where
  | hasSession (name : String)
  | newSession (detached : Bool) (name : String)
  | renameWindow (target : String) (name : String)
  | newWindow (session : String) (name : String)
  | sendKeys (target : String) (text : String) (confirm : Bool)
  | attachSession (name : String)
deriving Repr, DecidableEq

def Exec : Type := TmuxCmd → Option String

/-- `sessionExists` (lines 124-128): `tmux has-session -t name`; any
non-nil `Run` error — nonzero exit or failure to start — yields
`false`. -/
def sessionExists (ex : Exec) (name : String) : Bool :=
  (ex (.hasSession name)).isNone

/-- `fmt.Sprintf("%s:%d", session.SessionName, i)`. -/
def mkTarget (s : String) (i : Nat) : String :=
  s ++ ":" ++ toString i

/-- The inner `for _, cmdStr := range window.Commands` loop of
`createSession` (lines 160-165): issued commands plus the error of the
first failing one. -/
def sendCommands (ex : Exec) (target : String) (i : Nat) :
    List String → List TmuxCmd × Option String
  | [] => ([], none)
  | cmd :: rest =>
      match ex (.sendKeys target cmd true) with
      | some e =>
          ([.sendKeys target cmd true],
           some ("failed to send command to window " ++ toString i ++ ": " ++ e))
      | none =>
          match sendCommands ex target i rest with
          | (tr, r) => (.sendKeys target cmd true :: tr, r)

/-- The `for i, window := range session.Windows` loop of
`createSession` (lines 138-166), started at index `i`. -/
def createWindows (ex : Exec) (sname bp : String) :
    Nat → List TmuxWindow → List TmuxCmd × Option String
  | _, [] => ([], none)
  | i, w :: ws =>
      let c1 : TmuxCmd :=
        if i = 0 then .renameWindow (mkTarget sname i) w.name
        else .newWindow sname w.name
      match ex c1 with
      | some e => ([c1], some ("failed to create window: " ++ e))
      | none =>
          match ex (.sendKeys (mkTarget sname i) ("cd " ++ bp) true) with
          | some e =>
              ([c1, .sendKeys (mkTarget sname i) ("cd " ++ bp) true],
               some ("failed to change directory in window " ++ toString i ++ ": " ++ e))
          | none =>
              match sendCommands ex (mkTarget sname i) i w.commands with
              | (tr, some e) =>
                  (c1 :: .sendKeys (mkTarget sname i) ("cd " ++ bp) true :: tr, some e)
              | (tr, none) =>
                  match createWindows ex sname bp (i + 1) ws with
                  | (tr2, r) =>
                      (c1 :: .sendKeys (mkTarget sname i) ("cd " ++ bp) true :: tr ++ tr2, r)

/-- `createSession` (lines 131-169): detached session creation, then
the window loop; the issued command list and the returned error. -/
def createSession (ex : Exec) (s : TmuxSession) (bp : String) :
    List TmuxCmd × Option String :=
  match ex (.newSession true s.sessionName) with
  | some e => ([.newSession true s.sessionName], some ("failed to create session: " ++ e))
  | none =>
      match createWindows ex s.sessionName bp 0 s.windows with
      | (tr, r) => (.newSession true s.sessionName :: tr, r)

/-- `attachSession` (lines 172-186): prints, runs the attach command
with inherited stdio, wraps a failure. -/
def attachRun (ex : Exec) (name : String) : List String × List TmuxCmd × Option String :=
  match ex (.attachSession name) with
  | some e =>
      (["Attempting to attach to session: " ++ name], [.attachSession name],
       some ("failed to attach to session: " ++ e))
  | none =>
      (["Attempting to attach to session: " ++ name], [.attachSession name], none)

/-! The command plan of a failure-free `createSession` run, used to
state trace properties. -/

def windowPlan (sname bp : String) (i : Nat) (w : TmuxWindow) : List TmuxCmd :=
  (if i = 0 then .renameWindow (mkTarget sname i) w.name else .newWindow sname w.name)
  :: .sendKeys (mkTarget sname i) ("cd " ++ bp) true
  :: w.commands.map (fun c => .sendKeys (mkTarget sname i) c true)

def windowsPlan (sname bp : String) : Nat → List TmuxWindow → List TmuxCmd
  | _, [] => []
  | i, w :: ws => windowPlan sname bp i w ++ windowsPlan sname bp (i + 1) ws

def sessionPlan (s : TmuxSession) (bp : String) : List TmuxCmd :=
  .newSession true s.sessionName :: windowsPlan s.sessionName bp 0 s.windows

/-! ## The main pipeline (src/unnamed/part_000 lines 224-293)

The materialize-and-attach block (lines 273-292) and the whole
no-argument `main`.  `exitCode` is the process exit status: `os.Exit(1)`
on the fatal paths, 0 when `main` returns normally.  Note the
already-exists branch: an attach failure there prints a diagnostic but
does not call `os.Exit`, so `main` returns and the process exits 0. -/

structure PhaseResult where
  exitCode : Nat
  output : List String
  trace : List TmuxCmd
deriving Repr

/-- Lines 273-292 of `main`: existence check, then attach-only or
create-then-attach. -/
def materializePhase (ex : Exec) (s : TmuxSession) (bp : String) : PhaseResult :=
  if sessionExists ex s.sessionName then
    match attachRun ex s.sessionName with
    | (out, tr, some e) =>
        { exitCode := 0
          output := ("Session " ++ s.sessionName ++ " already exists. Attaching to it.")
                      :: out ++ ["Error attaching to session: " ++ e]
          trace := .hasSession s.sessionName :: tr }
    | (out, tr, none) =>
        { exitCode := 0
          output := ("Session " ++ s.sessionName ++ " already exists. Attaching to it.") :: out
          trace := .hasSession s.sessionName :: tr }
  else
    match createSession ex s bp with
    | (tr, some e) =>
        { exitCode := 1
          output := ["Error creating session: " ++ e]
          trace := .hasSession s.sessionName :: tr }
    | (tr, none) =>
        match attachRun ex s.sessionName with
        | (out, tr2, some e) =>
            { exitCode := 1
              output := out ++ ["Error attaching to session: " ++ e]
              trace := .hasSession s.sessionName :: tr ++ tr2 }
        | (out, tr2, none) =>
            { exitCode := 0
              output := out
              trace := .hasSession s.sessionName :: tr ++ tr2 }

/-- Join character-list pieces with a separator character. -/
def joinSep (sep : Char) : List (List Char) → List Char
  | [] => []
  | [x] => x
  | x :: y :: xs => x ++ sep :: joinSep sep (y :: xs)

/-- `filepath.Dir` restricted to the clean slash-separated paths the
walk produces (a collected path always has a non-root parent
directory): everything before the last separator, `"."` when there is
none. -/
def dirOf (p : String) : String :=
  let parts := splitOnChar '/' p.data
  if parts.length ≤ 1 then "." else ⟨joinSep '/' parts.dropLast⟩

/-- The external world one `main` run observes: the settings read, the
`os.Stat` answers, the tree under the root, the picker, the descriptor
parser, and the tmux oracle. -/
structure World where
  configRes : Except String (List (String × String))
  statIsDir : String → Option Bool
  tree : FsEntry
  fzf : List String → Except String String
  parse : String → Except String TmuxSession
  exec : Exec

structure MainResult where
  exitCode : Nat
  output : List String
  trace : List TmuxCmd
  fzfCalled : Bool
deriving Repr

/-- The no-argument run of `main` (lines 224-293): each stage in
source order, exiting 1 with its diagnostic at the first failure. -/
def mainRun (w : World) : MainResult :=
  match w.configRes with
  | .error e => ⟨1, ["Error reading configuration: " ++ e], [], false⟩
  | .ok cfg =>
      match lookupConfig cfg "TP_DIRECTORY" with
      | none => ⟨1, ["TP_DIRECTORY is not set in the configuration"], [], false⟩
      | some root =>
          match w.statIsDir root with
          | none => ⟨1, ["TP_DIRECTORY is not a valid directory (" ++ root ++ ")"], [], false⟩
          | some false => ⟨1, ["TP_DIRECTORY is not a valid directory (" ++ root ++ ")"], [], false⟩
          | some true =>
              match ListScripts root w.tree with
              | (_, some e) => ⟨1, ["Error listing scripts: " ++ e], [], false⟩
              | (scripts, none) =>
                  if scripts.isEmpty then ⟨1, ["No .tmux scripts found."], [], false⟩
                  else
                    match w.fzf scripts with
                    | .error e => ⟨1, ["Error selecting script: " ++ e], [], true⟩
                    | .ok sel =>
                        match w.parse sel with
                        | .error e =>
                            ⟨1, ["Error reading tmux session configuration: " ++ e], [], true⟩
                        | .ok sc =>
                            let r := materializePhase w.exec sc (dirOf sel)
                            ⟨r.exitCode, r.output, r.trace, true⟩

/-! ## Concrete scenario instances and small helpers -/

/-- Oracle under which every tmux command succeeds. -/
def execOk : Exec := fun _ => none

/-- Oracle under which `has-session` exits nonzero (session absent)
and every other command succeeds. -/
def execAbsent : Exec := fun c =>
  match c with
  | .hasSession _ => some "exit status 1"
  | _ => none

/-- The spec scenario descriptor
`{session_name:"s", windows:[{name:"w1", commands:["echo hi"]}]}`. -/
def sessionS : TmuxSession := ⟨"s", [⟨"w1", ["echo hi"]⟩]⟩

/-- Send-keys command whose text is the directory change to `bp`. -/
def isCdSend (bp : String) : TmuxCmd → Bool
  | .sendKeys _ t _ => t == "cd " ++ bp
  | _ => false

/-- Rename-window or new-window command. -/
def isWinOp : TmuxCmd → Bool
  | .renameWindow _ _ => true
  | .newWindow _ _ => true
  | _ => false

def startsWithL : List Char → List Char → Bool
  | _, [] => true
  | [], _ :: _ => false
  | c :: cs, d :: ds => c == d && startsWithL cs ds

def hasInfixL : List Char → List Char → Bool
  | [], needle => needle.isEmpty
  | h :: t, needle => startsWithL (h :: t) needle || hasInfixL t needle

/-- `sub` occurs contiguously inside `s`. -/
def strHasSub (s sub : String) : Bool :=
  hasInfixL s.data sub.data

/-- Depth-3 tree: the `.tmux` file lies 3 directory levels below the
root (relative path `a/b/c/.tmux`). -/
def treeDeep3 : FsEntry :=
  .dir "root" [.dir "a" [.dir "b" [.dir "c" [.file ".tmux"]]]]

/-! ## C2 -/

/-- C2: for the descriptor `{session_name:"s", windows:[{name:"w1",
commands:["echo hi"]}]}` with basePath `/proj`, when `has-session`
exits nonzero (session absent), the materialize-and-attach block
issues exactly: the existence check, then `new-session`(detached, s),
`rename-window`(s:0, "w1"), `send-keys`(s:0, "cd /proj", C-m),
`send-keys`(s:0, "echo hi", C-m), and finally `attach-session`(s), in
this order. -/
theorem C2_materialize_trace :
    (materializePhase execAbsent sessionS "/proj").trace =
      [.hasSession "s", .newSession true "s", .renameWindow "s:0" "w1",
       .sendKeys "s:0" "cd /proj" true, .sendKeys "s:0" "echo hi" true,
       .attachSession "s"] := by
  decide

/-! ## Counterexamples for the corrected claims -/

/-- C1 counterexample: `treeDeep3` has a regular `.tmux` file exactly
3 directory levels below the root and no walk error, yet `ListScripts`
returns the empty list — the code's bound is `len(Split(Rel)) ≤ 3`,
i.e. at most 2 directory levels below the root, not 3. -/
theorem C1_counterexample :
    isTmuxFileAt treeDeep3 ["a", "b", "c", ".tmux"] = true ∧
    noErr treeDeep3 = true ∧
    ListScripts "/r" treeDeep3 = ([], none) := by
  decide

/-- C3 counterexample: a successful materialization of a 1-window
descriptor issues exactly one `cd` send-keys, not `N + 1 = 2` as the
claim states. -/
theorem C3_counterexample :
    (createSession execOk sessionS "/proj").2 = none ∧
    ((createSession execOk sessionS "/proj").1.countP (isCdSend "/proj")) = 1 ∧
    sessionS.windows.length + 1 ≠ 1 := by
  decide

/-- C4 counterexample: the target addressed for window position 0 is
the hard-coded `"s:0"`; were the multiplexer configured with base
index 1, the claimed target base+i would be `mkTarget "s" (1 + 0) =
"s:1"`, which the code never addresses — no base offset is tracked. -/
theorem C4_counterexample :
    (createSession execOk sessionS "/proj").1.get? 1 =
      some (.renameWindow "s:0" "w1") ∧
    mkTarget "s" (1 + 0) ≠ "s:0" := by
  decide

/-- C7 counterexample: when the window-0 `rename-window` command fails,
`createSession` returns the error
`"failed to create window: exit status 1"`, which does not contain the
failing window index `0` (only the send-keys failure messages carry
the index). -/
theorem C7_counterexample :
    createSession
        (fun c => match c with | .renameWindow _ _ => some "exit status 1" | _ => none)
        sessionS "/proj" =
      ([.newSession true "s", .renameWindow "s:0" "w1"],
       some "failed to create window: exit status 1") ∧
    strHasSub "failed to create window: exit status 1" (toString (0 : Nat)) = false := by
  decide

/-- World in which every stage succeeds, the session already exists,
and the attach command fails. -/
def worldAttachFail : World :=
  { configRes := .ok [("TP_DIRECTORY", "/r")]
    statIsDir := fun p => if p == "/r" then some true else none
    tree := .dir "r" [.file ".tmux"]
    fzf := fun l => .ok (l.headD "")
    parse := fun _ => .ok sessionS
    exec := fun c => match c with | .attachSession _ => some "exit status 1" | _ => none }

/-- C5 counterexample: when the session already exists and the attach
command fails, `main` prints the diagnostic but falls through without
`os.Exit(1)`, so the process exits 0 — not 1 as the claim states for
attach failures. -/
theorem C5_counterexample :
    (mainRun worldAttachFail).exitCode = 0 ∧
    "Error attaching to session: failed to attach to session: exit status 1" ∈
      (mainRun worldAttachFail).output := by
  decide

/-- C9 counterexample: on the line `"K=  v"` the value is stored as
`"v"` — `strings.TrimSpace` strips the leading whitespace too, while
the claim says the value is right-trimmed only (predicting `"  v"`). -/
theorem C9_counterexample :
    lookupConfig (ReadConfigContent "K=  v") "K" = some "v" ∧
    some "v" ≠ some ("  v" : String) := by
  decide

/-! ## C6: idempotent attach and the has-session error conflation -/

/-- C6: if the existence check exits 0 the run issues only the check
and the attach command — no new-session, rename-window, new-window or
send-keys; and any error exit `e` of the check is interpreted as "the
session does not exist": the run proceeds to session creation (the
command right after the check is `new-session`), never reporting an
I/O failure. -/
theorem C6_exists_attach_only (ex : Exec) (s : TmuxSession) (bp : String) :
    (ex (.hasSession s.sessionName) = none →
      (materializePhase ex s bp).trace =
        [.hasSession s.sessionName, .attachSession s.sessionName]) ∧
    (∀ e : String, ex (.hasSession s.sessionName) = some e →
      (materializePhase ex s bp).trace.get? 1 =
        some (.newSession true s.sessionName)) := by
  constructor
  · intro h
    cases hA : ex (.attachSession s.sessionName) <;>
      simp [materializePhase, sessionExists, h, attachRun, hA]
  · intro e h
    cases hN : ex (.newSession true s.sessionName) <;>
      simp only [materializePhase, sessionExists, h, Option.isNone_some, if_neg,
        Bool.false_eq_true, not_false_iff, createSession, hN]
    · rcases hCW : createWindows ex s.sessionName bp 0 s.windows with ⟨tr, r⟩
      cases r <;>
        cases hA : ex (.attachSession s.sessionName) <;>
          simp [hCW, attachRun, hA]
    · rfl

/-- C6 witness: under `execOk` the session exists and only check and
attach are issued; under `execAbsent` the check fails and the second
command issued is `new-session`. -/
theorem C6_witness :
    (materializePhase execOk sessionS "/p").trace =
      [.hasSession "s", .attachSession "s"] ∧
    (materializePhase execAbsent sessionS "/p").trace.get? 1 =
      some (.newSession true "s") :=
  ⟨(C6_exists_attach_only execOk sessionS "/p").1 rfl,
   (C6_exists_attach_only execAbsent sessionS "/p").2 "exit status 1" rfl⟩

/-! ## C8: empty candidate list short-circuits before the picker -/

/-- C8: when the walk succeeds but finds no `.tmux` file, `main` exits
1 with "No .tmux scripts found." and the fzf picker process is never
invoked. -/
theorem C8_empty_short_circuit (w : World) (cfg : List (String × String)) (root : String)
    (hc : w.configRes = .ok cfg)
    (hk : lookupConfig cfg "TP_DIRECTORY" = some root)
    (hs : w.statIsDir root = some true)
    (hl : ListScripts root w.tree = ([], none)) :
    (mainRun w).exitCode = 1 ∧
    (mainRun w).output = ["No .tmux scripts found."] ∧
    (mainRun w).fzfCalled = false := by
  simp [mainRun, hc, hk, hs, hl]

/-- World whose root directory is empty. -/
def worldEmpty : World :=
  { configRes := .ok [("TP_DIRECTORY", "/r")]
    statIsDir := fun p => if p == "/r" then some true else none
    tree := .dir "r" []
    fzf := fun l => .ok (l.headD "")
    parse := fun _ => .ok sessionS
    exec := execOk }

/-- C8 witness: the empty root short-circuits with exit 1 and no fzf
invocation. -/
theorem C8_witness :
    (mainRun worldEmpty).exitCode = 1 ∧
    (mainRun worldEmpty).output = ["No .tmux scripts found."] ∧
    (mainRun worldEmpty).fzfCalled = false :=
  C8_empty_short_circuit worldEmpty [("TP_DIRECTORY", "/r")] "/r" rfl rfl (by decide) rfl

/-! ## C10: a walk error aborts everything -/

/-- C10: (abort) if the walk of the children `cs₁` completes without
error, then the walk of `cs₁ ++ errEntry :: rest` stops at the failing
entry: it returns exactly the scripts of `cs₁` together with that
entry's error, and the siblings `rest` are never walked; (fatal) when
`ListScripts` reports any error, `main` exits 1 printing only the
listing diagnostic — the descriptors already discovered are not
surfaced and the picker is not invoked. -/
theorem C10_walk_error_aborts :
    (∀ (fp : String) (segs : List String) (cs₁ rest : List FsEntry) (n m : String),
      (walkChildren fp segs cs₁).2 = none →
      walkChildren fp segs (cs₁ ++ .errEntry n m :: rest) =
        ((walkChildren fp segs cs₁).1, some m)) ∧
    (∀ (w : World) (cfg : List (String × String)) (root : String)
        (l : List String) (e : String),
      w.configRes = .ok cfg →
      lookupConfig cfg "TP_DIRECTORY" = some root →
      w.statIsDir root = some true →
      ListScripts root w.tree = (l, some e) →
      (mainRun w).exitCode = 1 ∧
      (mainRun w).output = ["Error listing scripts: " ++ e] ∧
      (mainRun w).fzfCalled = false) := by
  constructor
  · intro fp segs cs₁ rest n m h
    induction cs₁ with
    | nil => simp [walkChildren, walkEntry]
    | cons c cs ih =>
        rcases hE : walkEntry (fp ++ "/" ++ c.name) (segs ++ [c.name]) c with ⟨l1, r1⟩
        cases r1 with
        | some m1 => simp [walkChildren, hE] at h
        | none =>
            rcases hC : walkChildren fp segs cs with ⟨l2, r2⟩
            cases r2 with
            | some m2 => simp [walkChildren, hE, hC] at h
            | none =>
                have ih2 := ih (by simp [walkChildren, hE, hC])
                simp only [List.cons_append, walkChildren, hE, List.append_eq, ih2, hC]
  · intro w cfg root l e hc hk hs hl
    simp [mainRun, hc, hk, hs, hl]

/-- World whose tree has one discoverable script before a failing
entry. -/
def worldWalkErr : World :=
  { configRes := .ok [("TP_DIRECTORY", "/r")]
    statIsDir := fun p => if p == "/r" then some true else none
    tree := .dir "r" [.file ".tmux", .errEntry "x" "boom"]
    fzf := fun l => .ok (l.headD "")
    parse := fun _ => .ok sessionS
    exec := execOk }

/-- C10 witness: a concrete failing entry aborts the walk after the
sibling script, and the pipeline exits 1 without invoking fzf. -/
theorem C10_witness :
    walkChildren "/r" [] ([.file ".tmux"] ++ .errEntry "x" "boom" :: [.file ".tmux"]) =
      ((walkChildren "/r" [] [.file ".tmux"]).1, some "boom") ∧
    (mainRun worldWalkErr).exitCode = 1 ∧
    (mainRun worldWalkErr).output = ["Error listing scripts: boom"] ∧
    (mainRun worldWalkErr).fzfCalled = false :=
  ⟨C10_walk_error_aborts.1 "/r" [] [.file ".tmux"] [.file ".tmux"] "x" "boom" (by decide),
   C10_walk_error_aborts.2 worldWalkErr [("TP_DIRECTORY", "/r")] "/r" ["/r/.tmux"] "boom"
     rfl rfl (by decide) (by decide)⟩

/-! ## C9: settings-file line semantics -/

theorem splitEq_append (k v : List Char) (h : ∀ c ∈ k, c ≠ '=') :
    splitEq (k ++ '=' :: v) = (k, some v) := by
  induction k with
  | nil => simp [splitEq]
  | cons c cs ih =>
      have hc : c ≠ '=' := h c (by simp)
      simp [splitEq, hc, ih (fun d hd => h d (by simp [hd]))]

/-- C9 (amended): the reader skips the empty line, a line whose first
character is `#`, and a line containing no `=`; a line `k ++ "=" ++ v`
whose key part `k` has no `=` (so the split is at the first `=`) is
stored as `k ↦ TrimSpace(v)` — the value is trimmed on BOTH sides, not
only the right; and the key `TP_DIRECTORY` is the one `main` reads as
the descriptor-search root (its absence is the fatal
"TP_DIRECTORY is not set" path). -/
theorem C9_config_semantics :
    (∀ (cfg : List (String × String)) (line : String),
        line = "" ∨ line.data.head? = some '#' ∨ (splitEq line.data).2 = none →
        processLine cfg line = cfg) ∧
    (∀ (cfg : List (String × String)) (k v : String),
        (∀ c ∈ k.data, c ≠ '=') → k ≠ "" → k.data.head? ≠ some '#' →
        processLine cfg (k ++ "=" ++ v) = cfg ++ [(k, goTrimSpace v)]) ∧
    (∀ (w : World) (cfg : List (String × String)),
        w.configRes = .ok cfg → lookupConfig cfg "TP_DIRECTORY" = none →
        mainRun w = ⟨1, ["TP_DIRECTORY is not set in the configuration"], [], false⟩) := by
  refine ⟨?_, ?_, ?_⟩
  · intro cfg line h
    rcases h with h | h | h
    · subst h; rfl
    · rcases hd : line.data with _ | ⟨c, cs⟩
      · rw [hd] at h; simp at h
      · rw [hd] at h
        simp only [List.head?_cons, Option.some.injEq] at h
        subst h
        unfold processLine
        rw [hd]
        rfl
    · unfold processLine
      rcases hd : line.data with _ | ⟨c, cs⟩
      · rfl
      · rw [hd] at h
        by_cases hc : c = '#'
        · subst hc; rfl
        · rcases hs : splitEq (c :: cs) with ⟨a, b⟩
          rw [hs] at h
          simp only at h
          subst h
          simp [processLineChars, hc, hs]
  · intro cfg k v hk hne hhd
    have hdata : (k ++ "=" ++ v).data = k.data ++ '=' :: v.data := by
      simp [String.data_append]
    unfold processLine
    rw [hdata]
    rcases hkd : k.data with _ | ⟨c, cs⟩
    · exact absurd (String.ext hkd) hne
    · have hc : c ≠ '#' := by
        intro h
        exact hhd (by rw [hkd, h]; rfl)
      have hsp := splitEq_append k.data v.data hk
      rw [hkd] at hsp
      simp only [List.cons_append] at hsp ⊢
      simp [processLineChars, hc, hsp, ← hkd]
  · intro w cfg hc hk
    simp [mainRun, hc, hk]

/-- World whose settings contain no `TP_DIRECTORY` key. -/
def worldNoKey : World :=
  { configRes := .ok [("OTHER", "1")]
    statIsDir := fun _ => none
    tree := .file "x"
    fzf := fun l => .ok (l.headD "")
    parse := fun _ => .ok sessionS
    exec := execOk }

/-- C9 witness: a comment line is skipped, `"K=" ++ " v"` stores
`K ↦ "v"`, and a configuration without `TP_DIRECTORY` is the fatal
missing-key path. -/
theorem C9_witness :
    processLine [] "# note" = [] ∧
    processLine [] ("K" ++ "=" ++ " v ") = [] ++ [("K", goTrimSpace " v ")] ∧
    mainRun worldNoKey = ⟨1, ["TP_DIRECTORY is not set in the configuration"], [], false⟩ :=
  ⟨C9_config_semantics.1 [] "# note" (Or.inr (Or.inl rfl)),
   C9_config_semantics.2.1 [] "K" " v " (by decide) (by decide) (by decide),
   C9_config_semantics.2.2 worldNoKey [("OTHER", "1")] rfl rfl⟩

/-! ## Trace lemmas for `createSession` -/

theorem sendCommands_ok (ex : Exec) (target : String) (i : Nat) (cmds : List String)
    (h : (sendCommands ex target i cmds).2 = none) :
    (sendCommands ex target i cmds).1 =
      cmds.map (fun c => .sendKeys target c true) := by
  induction cmds with
  | nil => rfl
  | cons c rest ih =>
      cases hx : ex (.sendKeys target c true) with
      | some e => simp [sendCommands, hx] at h
      | none =>
          rcases hr : sendCommands ex target i rest with ⟨tr, r⟩
          cases r with
          | some e => simp [sendCommands, hx, hr] at h
          | none =>
              have ihe := ih (by simp [hr])
              rw [hr] at ihe
              simp [sendCommands, hx, hr, ihe]

theorem createWindows_ok (ex : Exec) (sname bp : String) :
    ∀ (i : Nat) (ws : List TmuxWindow),
      (createWindows ex sname bp i ws).2 = none →
      (createWindows ex sname bp i ws).1 = windowsPlan sname bp i ws := by
  intro i ws
  induction ws generalizing i with
  | nil => intro _; rfl
  | cons w rest ih =>
      intro h
      cases h1 : ex (if i = 0 then .renameWindow (mkTarget sname i) w.name
                     else .newWindow sname w.name) with
      | some e => simp [createWindows, h1] at h
      | none =>
          cases h2 : ex (.sendKeys (mkTarget sname i) ("cd " ++ bp) true) with
          | some e => simp [createWindows, h1, h2] at h
          | none =>
              rcases h3 : sendCommands ex (mkTarget sname i) i w.commands with ⟨tr, r⟩
              cases r with
              | some e => simp [createWindows, h1, h2, h3] at h
              | none =>
                  rcases h4 : createWindows ex sname bp (i + 1) rest with ⟨tr2, r2⟩
                  cases r2 with
                  | some e => simp [createWindows, h1, h2, h3, h4] at h
                  | none =>
                      have hs := sendCommands_ok ex (mkTarget sname i) i w.commands
                        (by simp [h3])
                      rw [h3] at hs
                      have hw := ih (i + 1) (by simp [h4])
                      rw [h4] at hw
                      have hs2 : tr =
                          w.commands.map (fun c => TmuxCmd.sendKeys (mkTarget sname i) c true) := by
                        simpa using hs
                      have hw2 : tr2 = windowsPlan sname bp (i + 1) rest := by
                        simpa using hw
                      simp [createWindows, h1, h2, h3, h4, windowsPlan, windowPlan, hs2, hw2]

theorem createSession_ok (ex : Exec) (s : TmuxSession) (bp : String)
    (h : (createSession ex s bp).2 = none) :
    (createSession ex s bp).1 = sessionPlan s bp := by
  cases hN : ex (.newSession true s.sessionName) with
  | some e => simp [createSession, hN] at h
  | none =>
      rcases hc : createWindows ex s.sessionName bp 0 s.windows with ⟨tr, r⟩
      cases r with
      | some e => simp [createSession, hN, hc] at h
      | none =>
          have hw := createWindows_ok ex s.sessionName bp 0 s.windows (by simp [hc])
          rw [hc] at hw
          simp [createSession, hN, hc, sessionPlan, hw]

theorem windowsPlan_block (sname bp : String) :
    ∀ (ws : List TmuxWindow) (i0 j : Nat) (h : j < ws.length),
      ∃ l r, windowsPlan sname bp i0 ws =
        l ++ windowPlan sname bp (i0 + j) (ws.get ⟨j, h⟩) ++ r := by
  intro ws
  induction ws with
  | nil => intro i0 j h; exact absurd h (by simp)
  | cons w rest ih =>
      intro i0 j h
      cases j with
      | zero =>
          exact ⟨[], windowsPlan sname bp (i0 + 1) rest, by simp [windowsPlan]⟩
      | succ j =>
          obtain ⟨l, r, hlr⟩ := ih (i0 + 1) j (Nat.lt_of_succ_lt_succ h)
          refine ⟨windowPlan sname bp i0 w ++ l, r, ?_⟩
          have hadd : i0 + (j + 1) = (i0 + 1) + j := by omega
          simp [windowsPlan, hadd, hlr]

theorem windowPlan_countP (sname bp : String) (i : Nat) (w : TmuxWindow) :
    (windowPlan sname bp i w).countP isWinOp = 1 := by
  have hmap :
      (w.commands.map (fun c => TmuxCmd.sendKeys (mkTarget sname i) c true)).countP
        isWinOp = 0 := by
    rw [List.countP_eq_zero]
    intro a ha
    obtain ⟨c, _, rfl⟩ := List.mem_map.mp ha
    simp [isWinOp]
  unfold windowPlan
  split <;> simp [List.countP_cons, isWinOp, hmap]

theorem windowsPlan_countP (sname bp : String) :
    ∀ (i : Nat) (ws : List TmuxWindow),
      (windowsPlan sname bp i ws).countP isWinOp = ws.length := by
  intro i ws
  induction ws generalizing i with
  | nil => rfl
  | cons w rest ih =>
      simp [windowsPlan, List.countP_append, windowPlan_countP, ih]
      omega

/-! ## C3: window operations of a successful materialization -/

/-- C3 (amended): a successful materialization of an N-window
descriptor (N ≥ 1) runs the full command plan: exactly N
rename-or-new-window operations (not N+1 `cd` sends — exactly one
directory-change send-keys per window, N in all), in window order; for
each window position i the block issued for it is consecutive — its
rename (for i = 0; index 0 is never created anew) or new-window (for
every i > 0), then the `cd basePath` send-keys, then that window's
user commands in order, so the `cd` precedes every user command of the
window. -/
theorem C3_window_operations (ex : Exec) (s : TmuxSession) (bp : String)
    (_hne : s.windows ≠ []) (h : (createSession ex s bp).2 = none) :
    (createSession ex s bp).1 = sessionPlan s bp ∧
    (sessionPlan s bp).countP isWinOp = s.windows.length ∧
    (∀ (i : Nat) (hi : i < s.windows.length),
      ∃ l r, sessionPlan s bp =
        l ++ windowPlan s.sessionName bp i (s.windows.get ⟨i, hi⟩) ++ r) ∧
    (∀ (i : Nat) (hi : i < s.windows.length),
      (windowPlan s.sessionName bp i (s.windows.get ⟨i, hi⟩)).head? =
        some (if i = 0
              then .renameWindow (mkTarget s.sessionName i) (s.windows.get ⟨i, hi⟩).name
              else .newWindow s.sessionName (s.windows.get ⟨i, hi⟩).name)) := by
  refine ⟨createSession_ok ex s bp h, ?_, ?_, ?_⟩
  · simp [sessionPlan, List.countP_cons, isWinOp, windowsPlan_countP]
  · intro i hi
    obtain ⟨l, r, hlr⟩ := windowsPlan_block s.sessionName bp s.windows 0 i hi
    rw [Nat.zero_add] at hlr
    exact ⟨.newSession true s.sessionName :: l, r, by simp [sessionPlan, hlr]⟩
  · intro i hi
    by_cases h0 : i = 0 <;> simp [windowPlan, h0]

/-- C3 witness: the scenario descriptor has one window and its
successful run satisfies the statement. -/
theorem C3_witness :
    sessionS.windows ≠ [] ∧
    (createSession execOk sessionS "/proj").1 = sessionPlan sessionS "/proj" :=
  ⟨by decide, (C3_window_operations execOk sessionS "/proj" (by decide) (by decide)).1⟩

/-! ## C4: the window-index base is hard-coded to 0 -/

/-- C4 (amended): the code does not track a configurable base window
index; it assumes the fixed base 0: the multiplexer target addressed
for renaming window 0 and for every send-keys of window position i is
`sessionName:i` (base 0 plus i), whatever base the target multiplexer
is actually configured with. -/
theorem C4_fixed_base_zero (s : TmuxSession) (bp : String) (i : Nat)
    (hi : i < s.windows.length) :
    ∃ l r, sessionPlan s bp =
      l ++ ((if i = 0
             then TmuxCmd.renameWindow (mkTarget s.sessionName i) (s.windows.get ⟨i, hi⟩).name
             else TmuxCmd.newWindow s.sessionName (s.windows.get ⟨i, hi⟩).name)
            :: TmuxCmd.sendKeys (mkTarget s.sessionName i) ("cd " ++ bp) true
            :: (s.windows.get ⟨i, hi⟩).commands.map
                 (fun c => TmuxCmd.sendKeys (mkTarget s.sessionName i) c true)) ++ r := by
  obtain ⟨l, r, hlr⟩ := windowsPlan_block s.sessionName bp s.windows 0 i hi
  rw [Nat.zero_add] at hlr
  exact ⟨.newSession true s.sessionName :: l, r, by simp [sessionPlan, hlr, windowPlan]⟩

/-- C4 witness: the block of window 0 of the scenario descriptor. -/
theorem C4_witness :
    ∃ l r, sessionPlan sessionS "/proj" =
      l ++ ((if (0 : Nat) = 0
             then TmuxCmd.renameWindow (mkTarget "s" 0) "w1"
             else TmuxCmd.newWindow "s" "w1")
            :: TmuxCmd.sendKeys (mkTarget "s" 0) ("cd " ++ "/proj") true
            :: (["echo hi"].map (fun c => TmuxCmd.sendKeys (mkTarget "s" 0) c true))) ++ r :=
  C4_fixed_base_zero sessionS "/proj" 0 (by decide)

/-! ## C7: fail-fast materialization with per-step error messages -/

/-- Shape of the error `createSession` returns for the failing command
`c`: session creation and window rename/create failures carry fixed
prefixes with no window index, while both kinds of send-keys failure
carry the index i of the window being populated — the same i as in the
failing command's `sessionName:i` target. -/
def failMsg (ex : Exec) (sname : String) (c : TmuxCmd) (e : String) : Prop :=
  match c with
  | .newSession _ _ => ∃ b, ex c = some b ∧ e = "failed to create session: " ++ b
  | .renameWindow _ _ => ∃ b, ex c = some b ∧ e = "failed to create window: " ++ b
  | .newWindow _ _ => ∃ b, ex c = some b ∧ e = "failed to create window: " ++ b
  | .sendKeys t _ _ => ∃ (i : Nat) (b : String), t = mkTarget sname i ∧ ex c = some b ∧
      (e = "failed to change directory in window " ++ toString i ++ ": " ++ b ∨
       e = "failed to send command to window " ++ toString i ++ ": " ++ b)
  | _ => False

theorem sendCommands_err (ex : Exec) (target : String) (i : Nat) (cmds : List String) :
    ∀ e, (sendCommands ex target i cmds).2 = some e →
      ∃ pre c b, (sendCommands ex target i cmds).1 = pre ++ [TmuxCmd.sendKeys target c true] ∧
        (∀ c₀ ∈ pre, ex c₀ = none) ∧ ex (TmuxCmd.sendKeys target c true) = some b ∧
        e = "failed to send command to window " ++ toString i ++ ": " ++ b := by
  induction cmds with
  | nil => intro e h; simp [sendCommands] at h
  | cons cmd rest ih =>
      intro e h
      cases hx : ex (.sendKeys target cmd true) with
      | some b =>
          simp only [sendCommands, hx, Option.some.injEq] at h
          exact ⟨[], cmd, b, by simp [sendCommands, hx], by simp, hx, h.symm⟩
      | none =>
          rcases hr : sendCommands ex target i rest with ⟨tr, r⟩
          cases r with
          | none => simp [sendCommands, hx, hr] at h
          | some e2 =>
              simp only [sendCommands, hx, hr, Option.some.injEq] at h
              obtain ⟨pre, c, b, h1, h2, h3, h4⟩ := ih e2 (by simp [hr])
              rw [hr] at h1
              refine ⟨.sendKeys target cmd true :: pre, c, b,
                by simp [sendCommands, hx, hr, h1], ?_, h3, by subst h; exact h4⟩
              intro c₀ hc₀
              rcases List.mem_cons.mp hc₀ with rfl | hmem
              · exact hx
              · exact h2 c₀ hmem

theorem sendCommands_prefix (ex : Exec) (target : String) (i : Nat) :
    ∀ cmds : List String,
      ∃ rest, cmds.map (fun c => TmuxCmd.sendKeys target c true) =
        (sendCommands ex target i cmds).1 ++ rest := by
  intro cmds
  induction cmds with
  | nil => exact ⟨[], rfl⟩
  | cons cmd rest ih =>
      cases hx : ex (.sendKeys target cmd true) with
      | some e =>
          exact ⟨rest.map (fun c => .sendKeys target c true),
                 by simp [sendCommands, hx]⟩
      | none =>
          obtain ⟨tail, ht⟩ := ih
          rcases hr : sendCommands ex target i rest with ⟨tr, r⟩
          rw [hr] at ht
          exact ⟨tail, by simp [sendCommands, hx, hr, ht]⟩

theorem createWindows_prefix (ex : Exec) (sname bp : String) :
    ∀ (i : Nat) (ws : List TmuxWindow),
      ∃ rest, windowsPlan sname bp i ws = (createWindows ex sname bp i ws).1 ++ rest := by
  intro i ws
  induction ws generalizing i with
  | nil => exact ⟨[], rfl⟩
  | cons w rest ih =>
      cases h1 : ex (if i = 0 then .renameWindow (mkTarget sname i) w.name
                     else .newWindow sname w.name) with
      | some e =>
          exact ⟨.sendKeys (mkTarget sname i) ("cd " ++ bp) true
                   :: w.commands.map (fun c => .sendKeys (mkTarget sname i) c true)
                   ++ windowsPlan sname bp (i + 1) rest,
                 by simp [windowsPlan, windowPlan, createWindows, h1]⟩
      | none =>
          cases h2 : ex (.sendKeys (mkTarget sname i) ("cd " ++ bp) true) with
          | some e =>
              exact ⟨w.commands.map (fun c => .sendKeys (mkTarget sname i) c true)
                       ++ windowsPlan sname bp (i + 1) rest,
                     by simp [windowsPlan, windowPlan, createWindows, h1, h2]⟩
          | none =>
              rcases h3 : sendCommands ex (mkTarget sname i) i w.commands with ⟨tr, r⟩
              cases r with
              | some e =>
                  obtain ⟨tail, ht⟩ := sendCommands_prefix ex (mkTarget sname i) i w.commands
                  rw [h3] at ht
                  exact ⟨tail ++ windowsPlan sname bp (i + 1) rest,
                         by simp [windowsPlan, windowPlan, createWindows, h1, h2, h3, ht]⟩
              | none =>
                  obtain ⟨tail, htail⟩ := ih (i + 1)
                  have hs := sendCommands_ok ex (mkTarget sname i) i w.commands (by simp [h3])
                  rw [h3] at hs
                  have hs2 : tr =
                      w.commands.map (fun c => TmuxCmd.sendKeys (mkTarget sname i) c true) := by
                    simpa using hs
                  exact ⟨tail, by simp [windowsPlan, windowPlan, createWindows, h1, h2, h3,
                    hs2, htail]⟩

theorem sendCommands_all_ok (ex : Exec) (target : String) (i : Nat) :
    ∀ cmds : List String, (sendCommands ex target i cmds).2 = none →
      ∀ c₀ ∈ (sendCommands ex target i cmds).1, ex c₀ = none := by
  intro cmds
  induction cmds with
  | nil => intro _ c₀ hc; simp [sendCommands] at hc
  | cons cmd rest ih =>
      intro h c₀ hc
      cases hx : ex (.sendKeys target cmd true) with
      | some e => simp [sendCommands, hx] at h
      | none =>
          rcases hr : sendCommands ex target i rest with ⟨tr, r⟩
          cases r with
          | some e => simp [sendCommands, hx, hr] at h
          | none =>
              simp only [sendCommands, hx, hr] at hc
              rcases List.mem_cons.mp hc with rfl | hmem
              · exact hx
              · exact ih (by simp [hr]) c₀ (by simp [hr, hmem])

theorem createWindows_err (ex : Exec) (sname bp : String) :
    ∀ (i : Nat) (ws : List TmuxWindow) (e : String),
      (createWindows ex sname bp i ws).2 = some e →
      ∃ pre c, (createWindows ex sname bp i ws).1 = pre ++ [c] ∧
        (∀ c₀ ∈ pre, ex c₀ = none) ∧ failMsg ex sname c e := by
  intro i ws
  induction ws generalizing i with
  | nil => intro e h; simp [createWindows] at h
  | cons w rest ih =>
      intro e h
      cases h1 : ex (if i = 0 then TmuxCmd.renameWindow (mkTarget sname i) w.name
                     else TmuxCmd.newWindow sname w.name) with
      | some b =>
          simp only [createWindows, h1, Option.some.injEq] at h
          by_cases h0 : i = 0
          · subst h0
            rw [if_pos rfl] at h1
            exact ⟨[], .renameWindow (mkTarget sname 0) w.name,
              by simp [createWindows, h1], by simp, ⟨b, h1, h.symm⟩⟩
          · rw [if_neg h0] at h1
            exact ⟨[], .newWindow sname w.name,
              by simp [createWindows, h0, h1], by simp, ⟨b, h1, h.symm⟩⟩
      | none =>
          cases h2 : ex (.sendKeys (mkTarget sname i) ("cd " ++ bp) true) with
          | some b =>
              simp only [createWindows, h1, h2, Option.some.injEq] at h
              refine ⟨[if i = 0 then .renameWindow (mkTarget sname i) w.name
                       else .newWindow sname w.name],
                .sendKeys (mkTarget sname i) ("cd " ++ bp) true,
                by simp [createWindows, h1, h2], ?_, ?_⟩
              · intro c₀ hc₀
                rcases List.mem_singleton.mp hc₀ with rfl
                exact h1
              · exact ⟨i, b, rfl, h2, Or.inl h.symm⟩
          | none =>
              rcases h3 : sendCommands ex (mkTarget sname i) i w.commands with ⟨tr, r⟩
              cases r with
              | some e2 =>
                  simp only [createWindows, h1, h2, h3, Option.some.injEq] at h
                  obtain ⟨pre, c, b, hp1, hp2, hp3, hp4⟩ :=
                    sendCommands_err ex (mkTarget sname i) i w.commands e2 (by simp [h3])
                  rw [h3] at hp1
                  have hp1s : tr = pre ++ [TmuxCmd.sendKeys (mkTarget sname i) c true] := by
                    simpa using hp1
                  refine ⟨(if i = 0 then .renameWindow (mkTarget sname i) w.name
                           else .newWindow sname w.name)
                            :: .sendKeys (mkTarget sname i) ("cd " ++ bp) true :: pre,
                    .sendKeys (mkTarget sname i) c true,
                    by simp [createWindows, h1, h2, h3, hp1s], ?_, ?_⟩
                  · intro c₀ hc₀
                    rcases List.mem_cons.mp hc₀ with rfl | hc₀
                    · exact h1
                    · rcases List.mem_cons.mp hc₀ with rfl | hc₀
                      · exact h2
                      · exact hp2 c₀ hc₀
                  · exact ⟨i, b, rfl, hp3, Or.inr (h ▸ hp4)⟩
              | none =>
                  rcases h4 : createWindows ex sname bp (i + 1) rest with ⟨tr2, r2⟩
                  cases r2 with
                  | none => simp [createWindows, h1, h2, h3, h4] at h
                  | some e2 =>
                      simp only [createWindows, h1, h2, h3, h4, Option.some.injEq] at h
                      obtain ⟨pre, c, hq1, hq2, hq3⟩ := ih (i + 1) e2 (by simp [h4])
                      rw [h4] at hq1
                      have hq1s : tr2 = pre ++ [c] := by simpa using hq1
                      have hs := sendCommands_ok ex (mkTarget sname i) i w.commands (by simp [h3])
                      rw [h3] at hs
                      refine ⟨(if i = 0 then .renameWindow (mkTarget sname i) w.name
                               else .newWindow sname w.name)
                                :: .sendKeys (mkTarget sname i) ("cd " ++ bp) true
                                :: (tr ++ pre), c,
                        by simp [createWindows, h1, h2, h3, h4, hq1s], ?_, h ▸ hq3⟩
                      intro c₀ hc₀
                      rcases List.mem_cons.mp hc₀ with rfl | hc₀
                      · exact h1
                      · rcases List.mem_cons.mp hc₀ with rfl | hc₀
                        · exact h2
                        · rcases List.mem_append.mp hc₀ with hc₀ | hc₀
                          · exact sendCommands_all_ok ex (mkTarget sname i) i w.commands
                              (by simp [h3]) c₀ (by simp [h3, hc₀])
                          · exact hq2 c₀ hc₀

/-- C7 (amended): when any multiplexer-control command of
materialization fails, `createSession` aborts at once — the issued
trace is a strict prefix of the full plan (nothing for later windows,
and no rollback commands exist anywhere in the surface), every command
before the failing one succeeded, the failing one is last — and the
returned error carries the window index for both send-keys steps
(directory change and user command, the same index as in the failing
command's target), but the rename/new-window failure is reported as
"failed to create window" without the index, and the session-creation
failure as "failed to create session". -/
theorem C7_abort_no_rollback (ex : Exec) (s : TmuxSession) (bp : String) (e : String)
    (h : (createSession ex s bp).2 = some e) :
    (∃ rest, sessionPlan s bp = (createSession ex s bp).1 ++ rest) ∧
    (∃ pre c, (createSession ex s bp).1 = pre ++ [c] ∧
      (∀ c₀ ∈ pre, ex c₀ = none) ∧ failMsg ex s.sessionName c e) := by
  constructor
  · cases hN : ex (.newSession true s.sessionName) with
    | some b =>
        exact ⟨windowsPlan s.sessionName bp 0 s.windows,
               by simp [sessionPlan, createSession, hN]⟩
    | none =>
        obtain ⟨tail, ht⟩ := createWindows_prefix ex s.sessionName bp 0 s.windows
        rcases hc : createWindows ex s.sessionName bp 0 s.windows with ⟨tr, r⟩
        rw [hc] at ht
        have hts : windowsPlan s.sessionName bp 0 s.windows = tr ++ tail := by simpa using ht
        exact ⟨tail, by simp [sessionPlan, createSession, hN, hc, hts]⟩
  · cases hN : ex (.newSession true s.sessionName) with
    | some b =>
        simp only [createSession, hN, Option.some.injEq] at h
        exact ⟨[], .newSession true s.sessionName,
               by simp [createSession, hN], by simp, ⟨b, hN, h.symm⟩⟩
    | none =>
        rcases hc : createWindows ex s.sessionName bp 0 s.windows with ⟨tr, r⟩
        cases r with
        | none => simp [createSession, hN, hc] at h
        | some e2 =>
            simp only [createSession, hN, hc, Option.some.injEq] at h
            obtain ⟨pre, c, hq1, hq2, hq3⟩ :=
              createWindows_err ex s.sessionName bp 0 s.windows e2 (by simp [hc])
            rw [hc] at hq1
            have hq1s : tr = pre ++ [c] := by simpa using hq1
            refine ⟨.newSession true s.sessionName :: pre, c,
              by simp [createSession, hN, hc, hq1s], ?_, h ▸ hq3⟩
            intro c₀ hc₀
            rcases List.mem_cons.mp hc₀ with rfl | hc₀
            · exact hN
            · exact hq2 c₀ hc₀

/-- Oracle under which every send-keys fails. -/
def execSendFail : Exec := fun c =>
  match c with
  | .sendKeys _ _ _ => some "exit status 1"
  | _ => none

/-- C7 witness: the directory-change send-keys of window 0 fails; the
trace is a prefix of the plan ending at the failing command and the
error names window 0. -/
theorem C7_witness :
    (∃ rest, sessionPlan sessionS "/proj" =
      (createSession execSendFail sessionS "/proj").1 ++ rest) ∧
    (∃ pre c, (createSession execSendFail sessionS "/proj").1 = pre ++ [c] ∧
      (∀ c₀ ∈ pre, execSendFail c₀ = none) ∧
      failMsg execSendFail "s" c "failed to change directory in window 0: exit status 1") :=
  C7_abort_no_rollback execSendFail sessionS "/proj"
    "failed to change directory in window 0: exit status 1" (by decide)

/-! ## C5: exit-code policy of the pipeline -/

theorem materializePhase_exit (ex : Exec) (s : TmuxSession) (bp : String) :
    ((materializePhase ex s bp).exitCode = 0 ∨ (materializePhase ex s bp).exitCode = 1) ∧
    ((materializePhase ex s bp).exitCode = 0 ↔
      (sessionExists ex s.sessionName = true ∨
        ((createSession ex s bp).2 = none ∧ ex (.attachSession s.sessionName) = none))) ∧
    ((materializePhase ex s bp).exitCode = 1 → (materializePhase ex s bp).output ≠ []) := by
  cases hS : sessionExists ex s.sessionName with
  | true =>
      cases hA : ex (.attachSession s.sessionName) <;>
        simp [materializePhase, hS, attachRun, hA]
  | false =>
      rcases hc : createSession ex s bp with ⟨tr, r⟩
      cases r with
      | some e => simp [materializePhase, hS, hc]
      | none =>
          cases hA : ex (.attachSession s.sessionName) <;>
            simp [materializePhase, hS, hc, attachRun, hA]

/-- The success condition of a full pipeline run, stage by stage:
settings read, root key present, root a directory, walk without error,
at least one descriptor, a selection, a parse, and then either the
session already exists (attach failure included — see the
counterexample) or it is created and attached successfully. -/
def pipelineSucceeds (w : World) : Prop :=
  ∃ cfg root scripts sel sc,
    w.configRes = .ok cfg ∧
    lookupConfig cfg "TP_DIRECTORY" = some root ∧
    w.statIsDir root = some true ∧
    ListScripts root w.tree = (scripts, none) ∧
    scripts ≠ [] ∧
    w.fzf scripts = .ok sel ∧
    w.parse sel = .ok sc ∧
    (sessionExists w.exec sc.sessionName = true ∨
      ((createSession w.exec sc (dirOf sel)).2 = none ∧
        w.exec (.attachSession sc.sessionName) = none))

/-- C5 (amended): the process exits 0 or 1; it exits 1, after printing
a diagnostic, on every fatal stage failure — configuration read,
missing `TP_DIRECTORY`, invalid root, walk error, zero descriptors,
selection failure, parse failure, creation failure, and attach failure
after a fresh creation — but an attach failure when the session
already existed prints its diagnostic and still exits 0. -/
theorem C5_exit_policy (w : World) :
    ((mainRun w).exitCode = 0 ∨ (mainRun w).exitCode = 1) ∧
    ((mainRun w).exitCode = 0 ↔ pipelineSucceeds w) ∧
    ((mainRun w).exitCode = 1 → (mainRun w).output ≠ []) := by
  rcases hcfg : w.configRes with e | cfg
  · simp [mainRun, hcfg, pipelineSucceeds]
  rcases hk : lookupConfig cfg "TP_DIRECTORY" with _ | root
  · simp [mainRun, hcfg, hk, pipelineSucceeds]
  rcases hs : w.statIsDir root with _ | b
  · simp [mainRun, hcfg, hk, hs, pipelineSucceeds]
  cases b with
  | false => simp [mainRun, hcfg, hk, hs, pipelineSucceeds]
  | true =>
      rcases hl : ListScripts root w.tree with ⟨scripts, err⟩
      cases err with
      | some e => simp [mainRun, hcfg, hk, hs, hl, pipelineSucceeds]
      | none =>
          rcases hsc : scripts with _ | ⟨p, ps⟩
          · simp [mainRun, hcfg, hk, hs, hl, hsc, pipelineSucceeds]
          rcases hf : w.fzf (p :: ps) with e | sel
          · simp [mainRun, hcfg, hk, hs, hl, hsc, hf, pipelineSucceeds]
          rcases hp : w.parse sel with e | sc
          · simp [mainRun, hcfg, hk, hs, hl, hsc, hf, hp, pipelineSucceeds]
          have hm := materializePhase_exit w.exec sc (dirOf sel)
          simp only [mainRun, hcfg, hk, hs, hl, hsc, List.isEmpty_cons, hf, hp,
            Bool.false_eq_true, if_false, pipelineSucceeds]
          refine ⟨hm.1, ?_, hm.2.2⟩
          rw [hm.2.1]
          constructor
          · intro hor
            exact ⟨cfg, root, p :: ps, sel, sc, rfl, hk, hs, by rw [hl, hsc],
                   by simp, hf, hp, hor⟩
          · rintro ⟨cfg2, root2, scripts2, sel2, sc2, e1, e2, e3, e4, _, e6, e7, hor⟩
            injection e1 with e1
            subst e1
            rw [hk] at e2
            injection e2 with e2
            subst e2
            rw [hl, hsc] at e4
            injection e4 with e4 _
            subst e4
            rw [hf] at e6
            injection e6 with e6
            subst e6
            rw [hp] at e7
            injection e7 with e7
            subst e7
            exact hor

/-- World in which every stage succeeds and the session is created and
attached. -/
def worldCreateOk : World :=
  { configRes := .ok [("TP_DIRECTORY", "/r")]
    statIsDir := fun p => if p == "/r" then some true else none
    tree := .dir "r" [.file ".tmux"]
    fzf := fun l => .ok (l.headD "")
    parse := fun _ => .ok sessionS
    exec := execAbsent }

/-- C5 witness: the attach-failure-on-existing world exits 0 (via the
success characterization), a fully successful creation run exits 0,
and a failing run has a nonempty diagnostic. -/
theorem C5_witness :
    (mainRun worldAttachFail).exitCode = 0 ∧
    (mainRun worldCreateOk).exitCode = 0 ∧
    (mainRun worldEmpty).output ≠ [] :=
  ⟨(C5_exit_policy worldAttachFail).2.1.mpr
     ⟨[("TP_DIRECTORY", "/r")], "/r", ["/r/.tmux"], "/r/.tmux", sessionS,
      rfl, rfl, rfl, rfl, by decide, rfl, rfl, Or.inl rfl⟩,
   (C5_exit_policy worldCreateOk).2.1.mpr
     ⟨[("TP_DIRECTORY", "/r")], "/r", ["/r/.tmux"], "/r/.tmux", sessionS,
      rfl, rfl, rfl, rfl, by decide, rfl, rfl, Or.inr ⟨by decide, rfl⟩⟩,
   (C5_exit_policy worldEmpty).2.2 (by decide)⟩

/-! ## C1: characterization of the bounded walk -/

theorem isTmuxFileAt_file (n : String) (t : List String) :
    isTmuxFileAt (.file n) t = false := by
  simp [isTmuxFileAt]

theorem isTmuxFileAt_err (n m : String) (t : List String) :
    isTmuxFileAt (.errEntry n m) t = false := by
  simp [isTmuxFileAt]

theorem isTmuxFileAt_dir (n : String) (cs : List FsEntry) (t : List String) :
    isTmuxFileAt (.dir n cs) t = anyTmuxAt cs t := by
  simp [isTmuxFileAt]

mutual

theorem walkEntry_sound (fp : String) (segs : List String) (c : FsEntry) (p : String)
    (h : noErr c = true) :
    (walkEntry fp segs c).2 = none ∧
    (p ∈ (walkEntry fp segs c).1 ↔
      ((∃ n, c = .file n ∧ n = ".tmux" ∧ p = fp ∧ segs.length ≤ 3) ∨
       (∃ tail, p = joinPath fp tail ∧ isTmuxFileAt c tail = true ∧
         segs.length + tail.length ≤ 3))) := by
  cases c with
  | errEntry n m => simp [noErr] at h
  | file n =>
      by_cases hd : segs.length > 3
      · refine ⟨by simp [walkEntry, hd], ?_⟩
        simp only [walkEntry, if_pos hd, List.not_mem_nil, false_iff]
        rintro (⟨n2, _, _, _, hle⟩ | ⟨tail, _, _, hle⟩)
        · omega
        · omega
      · have hle : segs.length ≤ 3 := by omega
        by_cases ht : n = ".tmux"
        · subst ht
          refine ⟨by simp [walkEntry, hd], ?_⟩
          simp [walkEntry, hd, hle, isTmuxFileAt_file]
        · refine ⟨by simp [walkEntry, hd, ht], ?_⟩
          simp [walkEntry, hd, ht, isTmuxFileAt_file]
  | dir nm cs =>
      have hcs : noErrList cs = true := by simpa [noErr] using h
      by_cases hd : segs.length > 3
      · refine ⟨by simp [walkEntry, hd], ?_⟩
        simp only [walkEntry, if_pos hd, List.not_mem_nil, false_iff]
        rintro (⟨n2, he, _, _, hle⟩ | ⟨tail, _, _, hle⟩)
        · exact absurd he (by simp)
        · omega
      · have h2 := walkChildren_sound fp segs cs p hcs
        refine ⟨by simp [walkEntry, hd, h2.1], ?_⟩
        have hmm : (walkEntry fp segs (.dir nm cs)).1 = (walkChildren fp segs cs).1 := by
          simp [walkEntry, hd]
        rw [hmm, h2.2]
        simp [isTmuxFileAt_dir]

theorem walkChildren_sound (fp : String) (segs : List String) (cs : List FsEntry) (p : String)
    (h : noErrList cs = true) :
    (walkChildren fp segs cs).2 = none ∧
    (p ∈ (walkChildren fp segs cs).1 ↔
      ∃ tail, p = joinPath fp tail ∧ anyTmuxAt cs tail = true ∧
        segs.length + tail.length ≤ 3) := by
  cases cs with
  | nil =>
      refine ⟨rfl, ?_⟩
      simp [walkChildren, anyTmuxAt]
  | cons c cs2 =>
      have hpair : noErr c = true ∧ noErrList cs2 = true := by
        simpa [noErrList, Bool.and_eq_true] using h
      have hE := walkEntry_sound (fp ++ "/" ++ c.name) (segs ++ [c.name]) c p hpair.1
      have hC := walkChildren_sound fp segs cs2 p hpair.2
      rcases hWE : walkEntry (fp ++ "/" ++ c.name) (segs ++ [c.name]) c with ⟨l1, r1⟩
      rw [hWE] at hE
      have hr1 : r1 = none := by simpa using hE.1
      subst hr1
      rcases hWC : walkChildren fp segs cs2 with ⟨l2, r2⟩
      rw [hWC] at hC
      have hr2 : r2 = none := by simpa using hC.1
      subst hr2
      refine ⟨by simp [walkChildren, hWE, hWC], ?_⟩
      have hmem : (walkChildren fp segs (c :: cs2)).1 = l1 ++ l2 := by
        simp [walkChildren, hWE, hWC]
      have hE2 := hE.2
      have hC2 := hC.2
      simp only at hE2 hC2
      rw [hmem, List.mem_append, hE2, hC2]
      constructor
      · rintro ((⟨n, rfl, rfl, rfl, hle⟩ | ⟨tail, hp, hmt, hle⟩) | ⟨tail, hp, hmt, hle⟩)
        · refine ⟨[FsEntry.name (.file ".tmux")], rfl, ?_, ?_⟩
          · simp [anyTmuxAt, entryMatch, FsEntry.name]
          · simp at hle
            simp
            omega
        · refine ⟨c.name :: tail, hp, ?_, ?_⟩
          · cases c with
            | errEntry n m => simp [noErr] at hpair
            | file n => rw [isTmuxFileAt_file] at hmt; exact absurd hmt (by simp)
            | dir n ds =>
                rw [isTmuxFileAt_dir] at hmt
                simp [anyTmuxAt, entryMatch, FsEntry.name, hmt]
          · simp at hle
            simp
            omega
        · refine ⟨tail, hp, ?_, hle⟩
          simp [anyTmuxAt, Bool.or_eq_true]
          right
          exact hmt
      · rintro ⟨tail, hp, hmt, hle⟩
        have hor : entryMatch c tail = true ∨ anyTmuxAt cs2 tail = true := by
          simpa [anyTmuxAt, Bool.or_eq_true] using hmt
        rcases hor with hm | hm
        · left
          cases c with
          | errEntry n m => simp [noErr] at hpair
          | file n =>
              rcases tail with _ | ⟨t1, rest⟩
              · simp [entryMatch] at hm
              · rcases rest with _ | ⟨t2, rest2⟩
                · simp only [entryMatch, Bool.and_eq_true, beq_iff_eq] at hm
                  left
                  refine ⟨n, rfl, hm.1.trans hm.2, ?_, ?_⟩
                  · rw [hp, hm.1]
                    rfl
                  · simp at hle ⊢
                    omega
                · simp [entryMatch] at hm
          | dir n ds =>
              rcases tail with _ | ⟨t1, rest⟩
              · simp [entryMatch] at hm
              · simp only [entryMatch, Bool.and_eq_true, beq_iff_eq] at hm
                right
                refine ⟨rest, ?_, ?_, ?_⟩
                · rw [hp, hm.1]
                  rfl
                · rw [isTmuxFileAt_dir]
                  exact hm.2
                · simp at hle ⊢
                  omega
        · right
          exact ⟨tail, hp, hm, hle⟩

end

/-- C1 (amended): for an error-free root directory tree, `ListScripts`
returns exactly the regular files named `.tmux` whose relative path
from the root has at most 3 components — that is, at most 2 directory
levels below the root, one level less than the claimed 3 (see the
counterexample) — skipping only the too-deep subtrees while continuing
shallower siblings, and never collecting a directory named `.tmux`. -/
theorem C1_bounded_walk (root : String) (t : FsEntry)
    (hdir : t.isDir = true) (herr : noErr t = true) (p : String) :
    (ListScripts root t).2 = none ∧
    (p ∈ (ListScripts root t).1 ↔
      ∃ segs, p = joinPath root segs ∧ isTmuxFileAt t segs = true ∧
        segs.length ≤ 3) := by
  cases t with
  | file n => simp [FsEntry.isDir] at hdir
  | errEntry n m => simp [FsEntry.isDir] at hdir
  | dir nm cs =>
      have hcs : noErrList cs = true := by simpa [noErr] using herr
      have h := walkChildren_sound root [] cs p hcs
      refine ⟨h.1, ?_⟩
      have hls : (ListScripts root (.dir nm cs)).1 = (walkChildren root [] cs).1 := rfl
      rw [hls, h.2]
      simp [isTmuxFileAt_dir]

/-- Shallow tree with a `.tmux` file one directory level below the
root. -/
def treeShallow : FsEntry := .dir "r" [.dir "a" [.file ".tmux"]]

/-- C1 witness: in `treeShallow`, the path `a/.tmux` (one directory
level down, 2 components) is collected, and the walk reports no
error. -/
theorem C1_witness :
    (ListScripts "/r" treeShallow).2 = none ∧
    "/r/a/.tmux" ∈ (ListScripts "/r" treeShallow).1 :=
  ⟨(C1_bounded_walk "/r" treeShallow rfl rfl "/r/a/.tmux").1,
   (C1_bounded_walk "/r" treeShallow rfl rfl "/r/a/.tmux").2.mpr
     ⟨["a", ".tmux"], rfl, by decide, by decide⟩⟩

end Teleport
